import Mathlib

/-!
Verification of the SEO-title-predictor dashboard (`seo_predictor_app.py`)
against its natural-language specification.

The Python source is shallowly embedded:
* strings are lists of character code points (`List Nat`), so that Python's
  `str.strip()`, `str.lower()` and the substring test `in` become executable
  Lean functions on lists;
* the Google Search Console fetch helpers are split into a request-body
  builder (the literal `body` dictionary from the source) and a response
  parser; the remote call `svc.searchanalytics().query(...).execute()` is an
  opaque function parameter;
* the external forecasting library (Prophet) is modelled from the spec, since
  its internals are outside the repository.
-/

namespace SeoApp

/-! ## Strings as code-point lists -/

/-- Character codes of a string literal: the shallow embedding of a Python
`str` value as the list of its code points. -/
def codes (s : String) : List Nat := s.toList.map Char.toNat

/-- Python `str.strip()` whitespace test on one code point (ASCII whitespace:
tab, LF, VT, FF, CR, space). -/
def isSpaceCode (c : Nat) : Bool :=
  c == 32 || c == 9 || c == 10 || c == 11 || c == 12 || c == 13

/-- Python `str.lower()` on one ASCII code point. -/
def lowerCode (c : Nat) : Nat := if 65 ≤ c ∧ c ≤ 90 then c + 32 else c

/-- Python `str.upper()` on one ASCII code point. -/
def upperCode (c : Nat) : Nat := if 97 ≤ c ∧ c ≤ 122 then c - 32 else c

/-- Remove leading whitespace (left half of Python `str.strip()`). -/
def lstrip (s : List Nat) : List Nat := s.dropWhile isSpaceCode

/-- Remove trailing whitespace (right half of Python `str.strip()`). -/
def rstrip (s : List Nat) : List Nat := (s.reverse.dropWhile isSpaceCode).reverse

/-- Python `str.strip()`: drop whitespace from both ends. -/
def pyStrip (s : List Nat) : List Nat := lstrip (rstrip s)

/-- Python `str.lower()`. -/
def pyLower (s : List Nat) : List Nat := s.map lowerCode

/-- Python `str.upper()`. -/
def pyUpper (s : List Nat) : List Nat := s.map upperCode

/-- Python substring test `needle in hay`. -/
def pyIn (needle : List Nat) : List Nat → Bool
  | [] => needle.isEmpty
  | c :: t => needle.isPrefixOf (c :: t) || pyIn needle t

/-- `needle` occurs contiguously inside `hay`. -/
def isSubstring (needle hay : List Nat) : Prop :=
  ∃ pre post, hay = pre ++ needle ++ post

/-! ## Heuristic evaluator (src lines 115-116, 132-133) -/

/-- Embedding of `keyword_in_title` (src lines 115-116):
`kw.strip().lower() in title.strip().lower()`. -/
def keyword_in_title (title kw : List Nat) : Bool :=
  pyIn (pyLower (pyStrip kw)) (pyLower (pyStrip title))

/-- Embedding of the confidence computation (src line 132):
`conf = 80 if keyword_in_title(title, keyword) else 50`. -/
def score (title kw : List Nat) : Nat :=
  if keyword_in_title title kw then 80 else 50

/-- Embedding of the classification (src line 133):
`label = "Optimizable ✅" if conf > 70 else "Not Optimizable ❌"`. -/
def label (conf : Nat) : String :=
  if conf > 70 then "Optimizable ✅" else "Not Optimizable ❌"

/-! ## Analytics client (src lines 12-104)

The remote call `svc.searchanalytics().query(siteUrl=..., body=body).execute()`
is an opaque parameter `exec` mapping a request body to a response; dates are
embedded as integer day numbers (calendar dates are totally ordered and
`datetime.timedelta` is day arithmetic). -/

/-- Config constant `SITE_URL` (src line 15). -/
def SITE_URL : String := "https://locusit.se/"

/-- Config constant `MAX_HISTORY` (src line 16). -/
def MAX_HISTORY : Nat := 90

/-- One entry of a `dimensionFilterGroups` filter list (src lines 65-71, 90-96). -/
structure DimensionFilter where
  dimension : String
  operator : String
  expression : String
deriving DecidableEq

/-- The request body dictionary passed to the search-analytics query. -/
structure GscRequestBody where
  startDate : Int
  endDate : Int
  dimensions : List String
  dimensionFilterGroups : List (List DimensionFilter) := []
  rowLimit : Nat
  metrics : List String := []
deriving DecidableEq

/-- A response row of a date-dimension query: `keys` holds the date, and the
`clicks` metric may be absent (`r.get("clicks", 0)`). -/
structure DateApiRow where
  keys : List Int
  clicks : Option Int
deriving DecidableEq

/-- A date-dimension response: the `rows` field may be absent
(`resp.get("rows", [])`). -/
structure DateApiResponse where
  rows : Option (List DateApiRow)
deriving DecidableEq

/-- One row of the dataframes built by `fetch_site_data`, `fetch_page_data`
and `fetch_keyword_data`: a date `ds` and a click count `y`. -/
structure TimeSeriesPoint where
  ds : Int
  y : Int
deriving DecidableEq

/-- Failure of a fetch: the only failure the parsing code itself can produce
is indexing `r["keys"][0]` into a malformed row. -/
inductive QueryError where
  | malformedRow
deriving DecidableEq

/-- Row-wise reading of a date-dimension response, embedding the two
comprehensions `[r["keys"][0] for r in rows]` and
`[r.get("clicks", 0) for r in rows]` (src lines 33-34, 77-78, 102-103);
a row with empty `keys` makes the comprehension raise. -/
def parseDateRows : List DateApiRow → Except QueryError (List TimeSeriesPoint)
  | [] => .ok []
  | r :: rs =>
    match r.keys with
    | [] => .error .malformedRow
    | d :: _ =>
      match parseDateRows rs with
      | .error e => .error e
      | .ok rest => .ok ({ ds := d, y := r.clicks.getD 0 } :: rest)

/-- Insert a point into a list that is sorted by `ds`. -/
def insertByDs (p : TimeSeriesPoint) : List TimeSeriesPoint → List TimeSeriesPoint
  | [] => [p]
  | q :: qs => if p.ds ≤ q.ds then p :: q :: qs else q :: insertByDs p qs

/-- pandas `DataFrame.sort_values("ds")` (src lines 35, 79, 104): sort the
rows in ascending order of the `ds` column. -/
def sort_values : List TimeSeriesPoint → List TimeSeriesPoint
  | [] => []
  | p :: ps => insertByDs p (sort_values ps)

/-- The shared tail of the three date-dimension fetchers: read `rows` (empty
when absent), build the `(ds, y)` rows, sort by `ds`. -/
def parse_and_sort (resp : DateApiResponse) : Except QueryError (List TimeSeriesPoint) :=
  match parseDateRows (resp.rows.getD []) with
  | .error e => .error e
  | .ok pts => .ok (sort_values pts)

/-- Request body built by `fetch_site_data` (src lines 27-29). -/
def fetch_site_data_body (today : Int) (days : Nat := MAX_HISTORY) : GscRequestBody :=
  { startDate := today - days, endDate := today, dimensions := ["date"], rowLimit := 10000 }

/-- Embedding of `fetch_site_data` (src lines 24-35). -/
def fetch_site_data (exec : GscRequestBody → DateApiResponse) (today : Int)
    (days : Nat := MAX_HISTORY) : Except QueryError (List TimeSeriesPoint) :=
  parse_and_sort (exec (fetch_site_data_body today days))

/-- Python `SITE_URL.rstrip("/")` (src line 69). -/
def rstripSlash (s : String) : String :=
  ((s.toList.reverse.dropWhile (· == '/')).reverse).asString

/-- Request body built by `fetch_page_data` (src lines 59-73). -/
def fetch_page_data_body (path : String) (today : Int) (days : Nat := MAX_HISTORY) :
    GscRequestBody :=
  { startDate := today - days, endDate := today, dimensions := ["date"],
    dimensionFilterGroups :=
      [[{ dimension := "page", operator := "equals",
          expression := rstripSlash SITE_URL ++ path }]],
    rowLimit := 10000 }

/-- Embedding of `fetch_page_data` (src lines 56-79). -/
def fetch_page_data (exec : GscRequestBody → DateApiResponse) (path : String)
    (today : Int) (days : Nat := MAX_HISTORY) : Except QueryError (List TimeSeriesPoint) :=
  parse_and_sort (exec (fetch_page_data_body path today days))

/-- Request body built by `fetch_keyword_data` (src lines 84-98). -/
def fetch_keyword_data_body (keyword : String) (today : Int) (days : Nat := MAX_HISTORY) :
    GscRequestBody :=
  { startDate := today - days, endDate := today, dimensions := ["date"],
    dimensionFilterGroups :=
      [[{ dimension := "query", operator := "equals",
          expression := keyword }]],
    rowLimit := 10000 }

/-- Embedding of `fetch_keyword_data` (src lines 81-104). -/
def fetch_keyword_data (exec : GscRequestBody → DateApiResponse) (keyword : String)
    (today : Int) (days : Nat := MAX_HISTORY) : Except QueryError (List TimeSeriesPoint) :=
  parse_and_sort (exec (fetch_keyword_data_body keyword today days))

/-- A response row of the query-dimension request: `keys` holds the search
term; `clicks` and `impressions` may each be absent. -/
structure QueryApiRow where
  keys : List String
  clicks : Option Int
  impressions : Option Int
deriving DecidableEq

/-- A query-dimension response: the `rows` field may be absent. -/
structure QueryApiResponse where
  rows : Option (List QueryApiRow)
deriving DecidableEq

/-- One row of the dataframe built by `fetch_queries_df` (src lines 50-54). -/
structure QueryRow where
  keyword : String
  clicks : Int
  impressions : Int
deriving DecidableEq

/-- Row-wise reading of a query-dimension response (src lines 50-54):
`{"keyword": r["keys"][0], "clicks": r.get("clicks", 0),
"impressions": r.get("impressions", 0)}`. -/
def parseQueryRows : List QueryApiRow → Except QueryError (List QueryRow)
  | [] => .ok []
  | r :: rs =>
    match r.keys with
    | [] => .error .malformedRow
    | k :: _ =>
      match parseQueryRows rs with
      | .error e => .error e
      | .ok rest =>
        .ok ({ keyword := k, clicks := r.clicks.getD 0,
               impressions := r.impressions.getD 0 } :: rest)

/-- Request body built by `fetch_queries_df` (src lines 40-48). -/
def fetch_queries_df_body (today : Int) (days : Nat := 30) (limit : Nat := 10) :
    GscRequestBody :=
  { startDate := today - days, endDate := today, dimensions := ["query"],
    rowLimit := limit, metrics := ["clicks", "impressions"] }

/-- Embedding of `fetch_queries_df` (src lines 37-54). -/
def fetch_queries_df (exec : GscRequestBody → QueryApiResponse) (today : Int)
    (days : Nat := 30) (limit : Nat := 10) : Except QueryError (List QueryRow) :=
  parseQueryRows ((exec (fetch_queries_df_body today days limit)).rows.getD [])

/-- The external analytics source honours the requested date range: every row
of a response carries a date inside `[startDate, endDate]` of the request that
produced it (the spec treats the remote service as "an opaque data source
queried by date range"). -/
def respectsRange (exec : GscRequestBody → DateApiResponse) : Prop :=
  ∀ body, ∀ r ∈ (exec body).rows.getD [], ∀ d ∈ r.keys.head?,
    body.startDate ≤ d ∧ d ≤ body.endDate

/-- A concrete remote source for the C6 witness: it answers with the single
date 5 whenever the requested range contains 5, and with nothing otherwise. -/
def execRangeW : GscRequestBody → DateApiResponse := fun body =>
  if body.startDate ≤ 5 ∧ (5 : Int) ≤ body.endDate then
    { rows := some [{ keys := [5], clicks := some 3 }] }
  else
    { rows := none }

/-! ## Forecast engine (src lines 107-112)

`forecast` delegates to the external Prophet library, which is not part of
this repository; the library's contract is modelled from the spec. -/

/-- Fit failure taxonomy of the spec's forecast engine. -/
inductive ForecastError where
  | insufficientData
deriving DecidableEq

/-- The forecasting model handle; `Prophet(daily_seasonality=True)` is
constructed at src line 108. -/
structure ProphetModel where
  daily_seasonality : Bool
deriving DecidableEq

/-- One projected entry: point estimate and uncertainty interval bounds. -/
structure ProjectedPoint where
  ds : Int
  yhat : Int
  yhat_lower : Int
  yhat_upper : Int
deriving DecidableEq

/-- The forecast output: the fitted history plus the projected entries. -/
structure ForecastResult where
  history : List TimeSeriesPoint
  projected : List ProjectedPoint
deriving DecidableEq

/-- The last observed date of the fitted history (0 for an empty history,
which the fit precondition excludes). -/
def lastDs (df : List TimeSeriesPoint) : Int :=
  match df.map TimeSeriesPoint.ds with
  | [] => 0
  | d :: ds => ds.foldl max d

/-- Modelled from the spec: the fit-and-predict behaviour of the external
forecasting library (`Prophet.fit`, `make_future_dataframe`, `predict`),
which is not part of src/. Fitting requires at least two points with
distinct dates (`InsufficientDataError` otherwise), and the forecast covers
exactly `horizon` future calendar days contiguous with the last observed
date; the fitted per-day estimates are opaque and abstracted as the
`predict` parameter. -/
def prophet_fit_predict (predict : Int → Int × Int × Int)
    (df : List TimeSeriesPoint) (horizon : Nat) : Except ForecastError ForecastResult :=
  if ((df.map TimeSeriesPoint.ds).dedup).length < 2 then
    .error .insufficientData
  else
    .ok { history := df,
          projected := (List.range horizon).map fun (i : Nat) =>
            { ds := lastDs df + 1 + (i : Int),
              yhat := (predict (lastDs df + 1 + (i : Int))).1,
              yhat_lower := (predict (lastDs df + 1 + (i : Int))).2.1,
              yhat_upper := (predict (lastDs df + 1 + (i : Int))).2.2 } }

/-- Embedding of `forecast` (src lines 107-112): build the model with
`daily_seasonality=True`, fit it on `df`, and predict `days_ahead` further
days. -/
def forecast (predict : Int → Int × Int × Int) (df : List TimeSeriesPoint)
    (days_ahead : Nat := 15) : Except ForecastError (ProphetModel × ForecastResult) :=
  match prophet_fit_predict predict df days_ahead with
  | .error e => .error e
  | .ok fc => .ok ({ daily_seasonality := true }, fc)

/-! ### Substring test facts -/

lemma isPrefixOf_iff_exists (n h : List Nat) :
    n.isPrefixOf h = true ↔ ∃ t, h = n ++ t := by
  induction n generalizing h with
  | nil => simp [List.isPrefixOf]
  | cons a n ih =>
    cases h with
    | nil => simp [List.isPrefixOf]
    | cons b h =>
      simp only [List.isPrefixOf, Bool.and_eq_true, beq_iff_eq, ih]
      constructor
      · rintro ⟨rfl, t, rfl⟩
        exact ⟨t, rfl⟩
      · rintro ⟨t, ht⟩
        simp only [List.cons_append, List.cons.injEq] at ht
        exact ⟨ht.1.symm, t, ht.2⟩

lemma pyIn_iff (n h : List Nat) : pyIn n h = true ↔ isSubstring n h := by
  induction h with
  | nil =>
    simp only [pyIn, List.isEmpty_iff, isSubstring]
    constructor
    · rintro rfl
      exact ⟨[], [], rfl⟩
    · rintro ⟨pre, post, hp⟩
      have h1 := List.append_eq_nil.mp hp.symm
      exact (List.append_eq_nil.mp h1.1).2
  | cons c t ih =>
    simp only [pyIn, Bool.or_eq_true, isPrefixOf_iff_exists, ih, isSubstring]
    constructor
    · rintro (⟨post, hpost⟩ | ⟨pre, post, rfl⟩)
      · exact ⟨[], post, by simpa using hpost⟩
      · exact ⟨c :: pre, post, rfl⟩
    · rintro ⟨pre, post, hp⟩
      cases pre with
      | nil =>
        exact Or.inl ⟨post, by simpa using hp⟩
      | cons c' pre =>
        simp only [List.cons_append, List.cons.injEq] at hp
        exact Or.inr ⟨pre, post, hp.2⟩

/-- C1: for every pair of strings, the heuristic score is 80 iff the
lowercase-trimmed keyword is a substring of the lowercase-trimmed title,
50 otherwise, and the score is always one of exactly 50 and 80. -/
theorem C1_score_values (title kw : List Nat) :
    (score title kw = 80 ↔ isSubstring (pyLower (pyStrip kw)) (pyLower (pyStrip title)))
    ∧ (score title kw = 50 ↔ ¬ isSubstring (pyLower (pyStrip kw)) (pyLower (pyStrip title)))
    ∧ (score title kw = 50 ∨ score title kw = 80) := by
  have hiff := pyIn_iff (pyLower (pyStrip kw)) (pyLower (pyStrip title))
  unfold score keyword_in_title
  by_cases hb : pyIn (pyLower (pyStrip kw)) (pyLower (pyStrip title)) = true
  · rw [if_pos hb]
    simp [hiff.mp hb]
  · rw [if_neg hb]
    have : ¬ isSubstring (pyLower (pyStrip kw)) (pyLower (pyStrip title)) := fun h => hb (hiff.mpr h)
    simp [this]

/-- C2: the classification label is the "Optimizable" one exactly when the
score exceeds 70 (strictly); the score never equals 70, 50 maps to
"Not Optimizable ❌" and 80 maps to "Optimizable ✅". -/
theorem C2_label_threshold (title kw : List Nat) :
    (label (score title kw) = "Optimizable ✅" ↔ 70 < score title kw)
    ∧ (label (score title kw) = "Not Optimizable ❌" ↔ ¬ 70 < score title kw)
    ∧ ("Optimizable".toList.isPrefixOf (label (score title kw)).toList = true ↔ 70 < score title kw)
    ∧ score title kw ≠ 70
    ∧ label 50 = "Not Optimizable ❌"
    ∧ label 80 = "Optimizable ✅" := by
  unfold score label
  by_cases hb : keyword_in_title title kw = true
  · rw [if_pos hb]
    decide
  · rw [if_neg hb]
    decide

theorem C1_score_values_witness :
    (score (codes "Best SEO Tips") (codes "seo") = 80 ↔
      isSubstring (pyLower (pyStrip (codes "seo"))) (pyLower (pyStrip (codes "Best SEO Tips"))))
    ∧ (score (codes "Best SEO Tips") (codes "seo") = 50 ↔
      ¬ isSubstring (pyLower (pyStrip (codes "seo"))) (pyLower (pyStrip (codes "Best SEO Tips"))))
    ∧ (score (codes "Best SEO Tips") (codes "seo") = 50
      ∨ score (codes "Best SEO Tips") (codes "seo") = 80) :=
  C1_score_values (codes "Best SEO Tips") (codes "seo")

theorem C2_label_threshold_witness :
    (label (score (codes "Best SEO Tips") (codes "cats")) = "Optimizable ✅" ↔
      70 < score (codes "Best SEO Tips") (codes "cats"))
    ∧ (label (score (codes "Best SEO Tips") (codes "cats")) = "Not Optimizable ❌" ↔
      ¬ 70 < score (codes "Best SEO Tips") (codes "cats"))
    ∧ ("Optimizable".toList.isPrefixOf
        (label (score (codes "Best SEO Tips") (codes "cats"))).toList = true ↔
      70 < score (codes "Best SEO Tips") (codes "cats"))
    ∧ score (codes "Best SEO Tips") (codes "cats") ≠ 70
    ∧ label 50 = "Not Optimizable ❌"
    ∧ label 80 = "Optimizable ✅" :=
  C2_label_threshold (codes "Best SEO Tips") (codes "cats")

/-! ### Invariance of the heuristic under case changes and outer whitespace -/

lemma lowerCode_lowerCode (c : Nat) : lowerCode (lowerCode c) = lowerCode c := by
  simp only [lowerCode]
  split_ifs <;> omega

lemma lowerCode_upperCode (c : Nat) : lowerCode (upperCode c) = lowerCode c := by
  simp only [lowerCode, upperCode]
  split_ifs <;> omega

lemma isSpaceCode_lowerCode (c : Nat) : isSpaceCode (lowerCode c) = isSpaceCode c := by
  unfold lowerCode
  split
  · have h1 : isSpaceCode (c + 32) = false := by
      simp only [isSpaceCode, Bool.or_eq_false_iff, beq_eq_false_iff_ne, ne_eq]
      omega
    have h2 : isSpaceCode c = false := by
      simp only [isSpaceCode, Bool.or_eq_false_iff, beq_eq_false_iff_ne, ne_eq]
      omega
    rw [h1, h2]
  · rfl

lemma isSpaceCode_upperCode (c : Nat) : isSpaceCode (upperCode c) = isSpaceCode c := by
  unfold upperCode
  split
  · have h1 : isSpaceCode (c - 32) = false := by
      simp only [isSpaceCode, Bool.or_eq_false_iff, beq_eq_false_iff_ne, ne_eq]
      omega
    have h2 : isSpaceCode c = false := by
      simp only [isSpaceCode, Bool.or_eq_false_iff, beq_eq_false_iff_ne, ne_eq]
      omega
    rw [h1, h2]
  · rfl

lemma dropWhile_append_of_all (p : Nat → Bool) (ws s : List Nat)
    (h : ∀ c ∈ ws, p c = true) : (ws ++ s).dropWhile p = s.dropWhile p := by
  induction ws with
  | nil => rfl
  | cons a t ih =>
    rw [List.cons_append, List.dropWhile_cons]
    rw [h a (List.mem_cons_self a t)]
    exact ih (fun c hc => h c (List.mem_cons_of_mem a hc))

lemma lstrip_space_append (ws s : List Nat) (h : ∀ c ∈ ws, isSpaceCode c = true) :
    lstrip (ws ++ s) = lstrip s :=
  dropWhile_append_of_all isSpaceCode ws s h

lemma rstrip_append_space (s ws : List Nat) (h : ∀ c ∈ ws, isSpaceCode c = true) :
    rstrip (s ++ ws) = rstrip s := by
  unfold rstrip
  rw [List.reverse_append]
  rw [dropWhile_append_of_all isSpaceCode ws.reverse s.reverse
    (fun c hc => h c (List.mem_reverse.mp hc))]

lemma lstrip_rstrip_space_append (ws t : List Nat)
    (h : ∀ c ∈ ws, isSpaceCode c = true) :
    lstrip (rstrip (ws ++ t)) = lstrip (rstrip t) := by
  unfold rstrip
  rw [List.reverse_append, List.dropWhile_append]
  by_cases hd : (t.reverse.dropWhile isSpaceCode).isEmpty = true
  · rw [if_pos hd]
    rw [List.isEmpty_iff] at hd
    rw [hd]
    rw [show ws.reverse.dropWhile isSpaceCode = [] from
      List.dropWhile_eq_nil_iff.mpr (fun c hc => h c (List.mem_reverse.mp hc))]
  · rw [if_neg hd]
    rw [List.reverse_append]
    rw [lstrip_space_append (ws.reverse.reverse) _
      (fun c hc => h c (by simpa using hc))]

lemma pyStrip_pad (ws₁ t ws₂ : List Nat)
    (h₁ : ∀ c ∈ ws₁, isSpaceCode c = true) (h₂ : ∀ c ∈ ws₂, isSpaceCode c = true) :
    pyStrip (ws₁ ++ t ++ ws₂) = pyStrip t := by
  unfold pyStrip
  rw [List.append_assoc, show rstrip (ws₁ ++ (t ++ ws₂)) = rstrip (ws₁ ++ t) by
      rw [← List.append_assoc]
      exact rstrip_append_space (ws₁ ++ t) ws₂ h₂]
  exact lstrip_rstrip_space_append ws₁ t h₁

lemma pyStrip_map (f : Nat → Nat) (hf : ∀ c, isSpaceCode (f c) = isSpaceCode c)
    (s : List Nat) : pyStrip (s.map f) = (pyStrip s).map f := by
  have hcomp : isSpaceCode ∘ f = isSpaceCode := funext hf
  unfold pyStrip lstrip rstrip
  rw [← List.map_reverse, List.dropWhile_map, hcomp, ← List.map_reverse,
    List.dropWhile_map, hcomp]

lemma pyLower_map (f : Nat → Nat) (hf : ∀ c, lowerCode (f c) = lowerCode c)
    (s : List Nat) : pyLower (s.map f) = pyLower s := by
  unfold pyLower
  rw [List.map_map]
  exact List.map_congr_left (fun c _ => hf c)

lemma score_map_left (f : Nat → Nat)
    (h1 : ∀ c, lowerCode (f c) = lowerCode c)
    (h2 : ∀ c, isSpaceCode (f c) = isSpaceCode c)
    (t k : List Nat) : score (t.map f) k = score t k := by
  unfold score keyword_in_title
  rw [pyStrip_map f h2, pyLower_map f h1]

lemma score_map_right (f : Nat → Nat)
    (h1 : ∀ c, lowerCode (f c) = lowerCode c)
    (h2 : ∀ c, isSpaceCode (f c) = isSpaceCode c)
    (t k : List Nat) : score t (k.map f) = score t k := by
  unfold score keyword_in_title
  rw [pyStrip_map f h2, pyLower_map f h1]

lemma pyIn_nil_left (h : List Nat) : pyIn [] h = true := by
  cases h <;> rfl

/-- C9: the heuristic score is invariant under surrounding either argument
with whitespace and under case changes of either argument (upper- or
lower-casing); the spec's concrete instance holds, and an empty keyword
always scores 80. -/
theorem C9_score_invariance (t k ws₁ ws₂ ws₃ ws₄ : List Nat)
    (h₁ : ∀ c ∈ ws₁, isSpaceCode c = true) (h₂ : ∀ c ∈ ws₂, isSpaceCode c = true)
    (h₃ : ∀ c ∈ ws₃, isSpaceCode c = true) (h₄ : ∀ c ∈ ws₄, isSpaceCode c = true) :
    score (ws₁ ++ t ++ ws₂) (ws₃ ++ k ++ ws₄) = score t k
    ∧ score (pyUpper t) k = score t k
    ∧ score (pyLower t) k = score t k
    ∧ score t (pyUpper k) = score t k
    ∧ score t (pyLower k) = score t k
    ∧ score (codes " Foo Bar ") (codes "foo") = score (codes "FOO BAR") (codes "FOO")
    ∧ score t [] = 80 := by
  refine ⟨?_, ?_, ?_, ?_, ?_, by decide, ?_⟩
  · unfold score keyword_in_title
    rw [pyStrip_pad ws₁ t ws₂ h₁ h₂, pyStrip_pad ws₃ k ws₄ h₃ h₄]
  · exact score_map_left upperCode lowerCode_upperCode isSpaceCode_upperCode t k
  · exact score_map_left lowerCode lowerCode_lowerCode isSpaceCode_lowerCode t k
  · exact score_map_right upperCode lowerCode_upperCode isSpaceCode_upperCode t k
  · exact score_map_right lowerCode lowerCode_lowerCode isSpaceCode_lowerCode t k
  · unfold score keyword_in_title
    rw [show pyLower (pyStrip []) = [] from rfl, pyIn_nil_left]
    rfl

theorem C9_score_invariance_witness :
    score ([32] ++ codes "Foo Bar" ++ [32, 9]) ([] ++ codes "foo" ++ [10])
        = score (codes "Foo Bar") (codes "foo")
    ∧ score (pyUpper (codes "Foo Bar")) (codes "foo") = score (codes "Foo Bar") (codes "foo")
    ∧ score (pyLower (codes "Foo Bar")) (codes "foo") = score (codes "Foo Bar") (codes "foo")
    ∧ score (codes "Foo Bar") (pyUpper (codes "foo")) = score (codes "Foo Bar") (codes "foo")
    ∧ score (codes "Foo Bar") (pyLower (codes "foo")) = score (codes "Foo Bar") (codes "foo")
    ∧ score (codes " Foo Bar ") (codes "foo") = score (codes "FOO BAR") (codes "FOO")
    ∧ score (codes "Foo Bar") [] = 80 :=
  C9_score_invariance (codes "Foo Bar") (codes "foo") [32] [32, 9] [] [10]
    (by decide) (by decide) (by decide) (by decide)

/-! ### Facts about response parsing and sorting -/

lemma parseDateRows_mem {rows : List DateApiRow} {pts : List TimeSeriesPoint}
    (h : parseDateRows rows = .ok pts) :
    ∀ p ∈ pts, ∃ r ∈ rows, r.keys.head? = some p.ds ∧ p.y = r.clicks.getD 0 := by
  induction rows generalizing pts with
  | nil =>
    simp only [parseDateRows, Except.ok.injEq] at h
    subst h
    simp
  | cons r rs ih =>
    intro p hp
    unfold parseDateRows at h
    rcases hk : r.keys with _ | ⟨d, ds⟩ <;> rw [hk] at h
    · exact absurd h (by simp)
    · rcases hrec : parseDateRows rs with e | rest <;> rw [hrec] at h
      · exact absurd h (by simp)
      · simp only [Except.ok.injEq] at h
        subst h
        rcases List.mem_cons.mp hp with rfl | hmem
        · exact ⟨r, List.mem_cons_self r rs, by rw [hk]; rfl, rfl⟩
        · rcases ih hrec p hmem with ⟨s, hs, h1, h2⟩
          exact ⟨s, List.mem_cons_of_mem r hs, h1, h2⟩

lemma parseDateRows_pairwise_ne {rows : List DateApiRow} {pts : List TimeSeriesPoint}
    (h : parseDateRows rows = .ok pts)
    (hd : rows.Pairwise (fun r s => r.keys.head? ≠ s.keys.head?)) :
    pts.Pairwise (fun p q => p.ds ≠ q.ds) := by
  induction rows generalizing pts with
  | nil =>
    simp only [parseDateRows, Except.ok.injEq] at h
    subst h
    exact List.Pairwise.nil
  | cons r rs ih =>
    unfold parseDateRows at h
    rcases hk : r.keys with _ | ⟨d, ds⟩ <;> rw [hk] at h
    · exact absurd h (by simp)
    · rcases hrec : parseDateRows rs with e | rest <;> rw [hrec] at h
      · exact absurd h (by simp)
      · simp only [Except.ok.injEq] at h
        subst h
        rcases List.pairwise_cons.mp hd with ⟨hhead, htail⟩
        refine List.pairwise_cons.mpr ⟨?_, ih hrec htail⟩
        intro q hq
        rcases parseDateRows_mem hrec q hq with ⟨s, hs, hsome, _⟩
        have hne : r.keys.head? ≠ s.keys.head? := hhead s hs
        rw [hk, hsome] at hne
        intro hcontra
        exact hne (by simpa using hcontra)

lemma insertByDs_perm (p : TimeSeriesPoint) (l : List TimeSeriesPoint) :
    List.Perm (insertByDs p l) (p :: l) := by
  induction l with
  | nil => exact List.Perm.refl _
  | cons q qs ih =>
    unfold insertByDs
    by_cases h : p.ds ≤ q.ds
    · rw [if_pos h]
    · rw [if_neg h]
      exact (ih.cons q).trans (List.Perm.swap p q qs)

lemma sort_values_perm (l : List TimeSeriesPoint) : List.Perm (sort_values l) l := by
  induction l with
  | nil => exact List.Perm.refl _
  | cons p ps ih => exact (insertByDs_perm p (sort_values ps)).trans (ih.cons p)

lemma insertByDs_sorted (p : TimeSeriesPoint) (l : List TimeSeriesPoint)
    (hl : l.Pairwise (fun a b => a.ds ≤ b.ds)) :
    (insertByDs p l).Pairwise (fun a b => a.ds ≤ b.ds) := by
  induction l with
  | nil => simp [insertByDs]
  | cons q qs ih =>
    rcases List.pairwise_cons.mp hl with ⟨hq, hqs⟩
    unfold insertByDs
    by_cases h : p.ds ≤ q.ds
    · rw [if_pos h]
      refine List.pairwise_cons.mpr ⟨?_, hl⟩
      intro x hx
      rcases List.mem_cons.mp hx with rfl | hmem
      · exact h
      · exact le_trans h (hq x hmem)
    · rw [if_neg h]
      refine List.pairwise_cons.mpr ⟨?_, ih hqs⟩
      intro x hx
      have hx2 : x ∈ p :: qs := (insertByDs_perm p qs).mem_iff.mp hx
      rcases List.mem_cons.mp hx2 with rfl | hmem
      · omega
      · exact hq x hmem

lemma sort_values_sorted (l : List TimeSeriesPoint) :
    (sort_values l).Pairwise (fun a b => a.ds ≤ b.ds) := by
  induction l with
  | nil => exact List.Pairwise.nil
  | cons p ps ih => exact insertByDs_sorted p (sort_values ps) ih

lemma parseQueryRows_ok {rows : List QueryApiRow} (h : ∀ r ∈ rows, r.keys ≠ []) :
    ∃ qs, parseQueryRows rows = .ok qs ∧
      List.Forall₂ (fun (r : QueryApiRow) (q : QueryRow) =>
        some q.keyword = r.keys.head? ∧ q.clicks = r.clicks.getD 0
          ∧ q.impressions = r.impressions.getD 0) rows qs := by
  induction rows with
  | nil => exact ⟨[], rfl, List.Forall₂.nil⟩
  | cons r rs ih =>
    rcases ih (fun s hs => h s (List.mem_cons_of_mem r hs)) with ⟨qs, hqs, hrel⟩
    rcases hne : r.keys with _ | ⟨k, ks⟩
    · exact absurd hne (h r (List.mem_cons_self r rs))
    · refine ⟨{ keyword := k, clicks := r.clicks.getD 0,
                impressions := r.impressions.getD 0 } :: qs, ?_, ?_⟩
      · unfold parseQueryRows
        rw [hne, hqs]
      · exact List.Forall₂.cons ⟨by rw [hne]; rfl, rfl, rfl⟩ hrel

lemma parse_and_sort_range {resp : DateApiResponse} {pts : List TimeSeriesPoint}
    (h : parse_and_sort resp = .ok pts) (lo hi : Int)
    (hresp : ∀ r ∈ resp.rows.getD [], ∀ d ∈ r.keys.head?, lo ≤ d ∧ d ≤ hi) :
    ∀ p ∈ pts, lo ≤ p.ds ∧ p.ds ≤ hi := by
  unfold parse_and_sort at h
  rcases hrec : parseDateRows (resp.rows.getD []) with e | pts₀ <;> rw [hrec] at h
  · exact absurd h (by simp)
  · simp only [Except.ok.injEq] at h
    subst h
    intro p hp
    have hp₀ : p ∈ pts₀ := (sort_values_perm pts₀).mem_iff.mp hp
    rcases parseDateRows_mem hrec p hp₀ with ⟨r, hr, hsome, _⟩
    exact hresp r hr p.ds (Option.mem_def.mpr hsome)

/-- C6: each fetch operation requests `startDate = today - days` and
`endDate = today` (inclusive bounds), and when the remote source honours the
requested range, every returned series point falls inside that range. -/
theorem C6_date_range (exec : GscRequestBody → DateApiResponse)
    (today : Int) (days limit : Nat) (path kw : String)
    (hexec : respectsRange exec) :
    (fetch_site_data_body today days).startDate = today - days
    ∧ (fetch_site_data_body today days).endDate = today
    ∧ (fetch_page_data_body path today days).startDate = today - days
    ∧ (fetch_page_data_body path today days).endDate = today
    ∧ (fetch_keyword_data_body kw today days).startDate = today - days
    ∧ (fetch_keyword_data_body kw today days).endDate = today
    ∧ (fetch_queries_df_body today days limit).startDate = today - days
    ∧ (fetch_queries_df_body today days limit).endDate = today
    ∧ (∀ pts, fetch_site_data exec today days = .ok pts →
        ∀ p ∈ pts, today - days ≤ p.ds ∧ p.ds ≤ today)
    ∧ (∀ pts, fetch_page_data exec path today days = .ok pts →
        ∀ p ∈ pts, today - days ≤ p.ds ∧ p.ds ≤ today)
    ∧ (∀ pts, fetch_keyword_data exec kw today days = .ok pts →
        ∀ p ∈ pts, today - days ≤ p.ds ∧ p.ds ≤ today) := by
  refine ⟨rfl, rfl, rfl, rfl, rfl, rfl, rfl, rfl, ?_, ?_, ?_⟩
  · intro pts h
    exact parse_and_sort_range h (today - days) today
      (fun r hr d hd => hexec (fetch_site_data_body today days) r hr d hd)
  · intro pts h
    exact parse_and_sort_range h (today - days) today
      (fun r hr d hd => hexec (fetch_page_data_body path today days) r hr d hd)
  · intro pts h
    exact parse_and_sort_range h (today - days) today
      (fun r hr d hd => hexec (fetch_keyword_data_body kw today days) r hr d hd)

lemma execRangeW_respectsRange : respectsRange execRangeW := by
  intro body r hr d hd
  unfold execRangeW at hr
  by_cases hc : body.startDate ≤ 5 ∧ (5 : Int) ≤ body.endDate
  · rw [if_pos hc] at hr
    simp only [Option.getD_some, List.mem_singleton] at hr
    subst hr
    simp only [List.head?_cons, Option.mem_def, Option.some.injEq] at hd
    subst hd
    exact hc
  · rw [if_neg hc] at hr
    simp at hr

theorem C6_date_range_witness :
    (fetch_site_data_body 10 30).startDate = 10 - 30
    ∧ (fetch_site_data_body 10 30).endDate = 10
    ∧ (fetch_page_data_body "/a" 10 30).startDate = 10 - 30
    ∧ (fetch_page_data_body "/a" 10 30).endDate = 10
    ∧ (fetch_keyword_data_body "k" 10 30).startDate = 10 - 30
    ∧ (fetch_keyword_data_body "k" 10 30).endDate = 10
    ∧ (fetch_queries_df_body 10 30 10).startDate = 10 - 30
    ∧ (fetch_queries_df_body 10 30 10).endDate = 10
    ∧ (∀ pts, fetch_site_data execRangeW 10 30 = .ok pts →
        ∀ p ∈ pts, 10 - 30 ≤ p.ds ∧ p.ds ≤ 10)
    ∧ (∀ pts, fetch_page_data execRangeW "/a" 10 30 = .ok pts →
        ∀ p ∈ pts, 10 - 30 ≤ p.ds ∧ p.ds ≤ 10)
    ∧ (∀ pts, fetch_keyword_data execRangeW "k" 10 30 = .ok pts →
        ∀ p ∈ pts, 10 - 30 ≤ p.ds ∧ p.ds ≤ 10) :=
  C6_date_range execRangeW 10 30 10 "/a" "k" execRangeW_respectsRange

/-- C7: whenever the analytics response has pairwise-distinct dates and
non-negative click metrics, every fetched time-series table has strictly
increasing dates and non-negative values; each date-dimension fetcher is the
shared parse-and-sort pipeline applied to its own request. -/
theorem C7_timeseries_invariant (resp : DateApiResponse) (pts : List TimeSeriesPoint)
    (hdistinct : (resp.rows.getD []).Pairwise (fun r s => r.keys.head? ≠ s.keys.head?))
    (hpos : ∀ r ∈ resp.rows.getD [], 0 ≤ r.clicks.getD 0)
    (hok : parse_and_sort resp = .ok pts) :
    (pts.Pairwise (fun p q => p.ds < q.ds) ∧ ∀ p ∈ pts, 0 ≤ p.y)
    ∧ (∀ exec today days, fetch_site_data exec today days
        = parse_and_sort (exec (fetch_site_data_body today days)))
    ∧ (∀ exec kw today days, fetch_keyword_data exec kw today days
        = parse_and_sort (exec (fetch_keyword_data_body kw today days)))
    ∧ (∀ exec path today days, fetch_page_data exec path today days
        = parse_and_sort (exec (fetch_page_data_body path today days))) := by
  refine ⟨?_, fun _ _ _ => rfl, fun _ _ _ _ => rfl, fun _ _ _ _ => rfl⟩
  unfold parse_and_sort at hok
  rcases hrec : parseDateRows (resp.rows.getD []) with e | pts₀ <;> rw [hrec] at hok
  · exact absurd hok (by simp)
  · simp only [Except.ok.injEq] at hok
    subst hok
    constructor
    · have hsorted := sort_values_sorted pts₀
      have hne₀ := parseDateRows_pairwise_ne hrec hdistinct
      have hne : (sort_values pts₀).Pairwise (fun p q => p.ds ≠ q.ds) :=
        ((sort_values_perm pts₀).pairwise_iff (fun hxy => hxy.symm)).mpr hne₀
      exact (hsorted.and hne).imp (fun hpq => lt_of_le_of_ne hpq.1 hpq.2)
    · intro p hp
      have hp₀ : p ∈ pts₀ := (sort_values_perm pts₀).mem_iff.mp hp
      rcases parseDateRows_mem hrec p hp₀ with ⟨r, hr, _, hy⟩
      rw [hy]
      exact hpos r hr

theorem C7_timeseries_invariant_witness :
    (([⟨3, 0⟩, ⟨7, 2⟩] : List TimeSeriesPoint).Pairwise (fun p q => p.ds < q.ds)
      ∧ ∀ p ∈ ([⟨3, 0⟩, ⟨7, 2⟩] : List TimeSeriesPoint), 0 ≤ p.y)
    ∧ (∀ exec today days, fetch_site_data exec today days
        = parse_and_sort (exec (fetch_site_data_body today days)))
    ∧ (∀ exec kw today days, fetch_keyword_data exec kw today days
        = parse_and_sort (exec (fetch_keyword_data_body kw today days)))
    ∧ (∀ exec path today days, fetch_page_data exec path today days
        = parse_and_sort (exec (fetch_page_data_body path today days))) :=
  C7_timeseries_invariant
    { rows := some [{ keys := [7], clicks := some 2 }, { keys := [3], clicks := none }] }
    [⟨3, 0⟩, ⟨7, 2⟩] (by decide) (by decide) rfl

/-- C8: a response with zero rows, or with no `rows` field at all, makes
every fetch return the empty table as a normal (non-error) result, which is
distinguishable from a failure. -/
theorem C8_empty_rows (today : Int) (days limit : Nat) :
    parse_and_sort { rows := none } = .ok []
    ∧ parse_and_sort { rows := some [] } = .ok []
    ∧ fetch_site_data (fun _ => { rows := none }) today days = .ok []
    ∧ fetch_site_data (fun _ => { rows := some [] }) today days = .ok []
    ∧ fetch_queries_df (fun _ => { rows := none }) today days limit = .ok []
    ∧ fetch_queries_df (fun _ => { rows := some [] }) today days limit = .ok []
    ∧ (∀ e : QueryError, Except.ok ([] : List TimeSeriesPoint) ≠ Except.error e)
    ∧ parse_and_sort { rows := some [{ keys := [], clicks := some 1 }] }
        = .error .malformedRow :=
  ⟨rfl, rfl, rfl, rfl, rfl, rfl, fun _ h => Except.noConfusion h, rfl⟩

theorem C8_empty_rows_witness :
    parse_and_sort { rows := none } = .ok []
    ∧ parse_and_sort { rows := some [] } = .ok []
    ∧ fetch_site_data (fun _ => { rows := none }) 0 90 = .ok []
    ∧ fetch_site_data (fun _ => { rows := some [] }) 0 90 = .ok []
    ∧ fetch_queries_df (fun _ => { rows := none }) 0 30 10 = .ok []
    ∧ fetch_queries_df (fun _ => { rows := some [] }) 0 30 10 = .ok []
    ∧ (∀ e : QueryError, Except.ok ([] : List TimeSeriesPoint) ≠ Except.error e)
    ∧ parse_and_sort { rows := some [{ keys := [], clicks := some 1 }] }
        = .error .malformedRow :=
  C8_empty_rows 0 90 10

/-- C10: a response row whose `keys` is present but whose `clicks` (or, for
the query table, `impressions`) metric is absent parses with 0 substituted
for the missing metric and the fetch returns normally; consequently a
returned `QueryRow` can have more clicks than impressions. -/
theorem C10_missing_metrics (rows : List QueryApiRow) (k : String) (c : Int)
    (today : Int) (days limit : Nat)
    (hkeys : ∀ r ∈ rows, r.keys ≠ []) (hc : 0 < c) :
    (∃ qs, parseQueryRows rows = .ok qs ∧
      List.Forall₂ (fun (r : QueryApiRow) (q : QueryRow) =>
        some q.keyword = r.keys.head? ∧ q.clicks = r.clicks.getD 0
          ∧ q.impressions = r.impressions.getD 0) rows qs)
    ∧ fetch_queries_df
        (fun _ => { rows := some [{ keys := [k], clicks := some c, impressions := none }] })
        today days limit
        = .ok [{ keyword := k, clicks := c, impressions := 0 }]
    ∧ (QueryRow.mk k c 0).clicks > (QueryRow.mk k c 0).impressions
    ∧ parse_and_sort { rows := some [{ keys := [5], clicks := none }] }
        = .ok [{ ds := 5, y := 0 }] :=
  ⟨parseQueryRows_ok hkeys, rfl, hc, rfl⟩

theorem C10_missing_metrics_witness :
    (∃ qs, parseQueryRows [{ keys := ["kw"], clicks := none, impressions := some 4 }] = .ok qs ∧
      List.Forall₂ (fun (r : QueryApiRow) (q : QueryRow) =>
        some q.keyword = r.keys.head? ∧ q.clicks = r.clicks.getD 0
          ∧ q.impressions = r.impressions.getD 0)
        [{ keys := ["kw"], clicks := none, impressions := some 4 }] qs)
    ∧ fetch_queries_df
        (fun _ => { rows := some [{ keys := ["a"], clicks := some 10, impressions := none }] })
        0 30 10
        = .ok [{ keyword := "a", clicks := 10, impressions := 0 }]
    ∧ (QueryRow.mk "a" 10 0).clicks > (QueryRow.mk "a" 10 0).impressions
    ∧ parse_and_sort { rows := some [{ keys := [5], clicks := none }] }
        = .ok [{ ds := 5, y := 0 }] :=
  C10_missing_metrics [{ keys := ["kw"], clicks := none, impressions := some 4 }]
    "a" 10 0 30 10 (by decide) (by decide)

/-- C3: on a series with fewer than two distinct dates (in particular a
0-point or 1-point series), the forecast fails with the insufficient-data
error instead of returning a result. -/
theorem C3_insufficient_data (predict : Int → Int × Int × Int)
    (df : List TimeSeriesPoint) (days_ahead : Nat)
    (h : ((df.map TimeSeriesPoint.ds).dedup).length < 2) :
    forecast predict df days_ahead = .error .insufficientData := by
  unfold forecast prophet_fit_predict
  rw [if_pos h]

theorem C3_insufficient_data_witness :
    forecast (fun _ => (0, 0, 0)) [⟨0, 5⟩] 15 = .error .insufficientData
    ∧ forecast (fun _ => (0, 0, 0)) [] 15 = .error .insufficientData :=
  ⟨C3_insufficient_data (fun _ => (0, 0, 0)) [⟨0, 5⟩] 15 (by decide),
   C3_insufficient_data (fun _ => (0, 0, 0)) [] 15 (by decide)⟩

/-- C5: on a series with at least two distinct dates and a positive horizon
`N`, the forecast succeeds with daily seasonality enabled in the model, and
its projected sequence has exactly `N` entries whose dates are the `N`
consecutive days following the last history date, strictly increasing with
no gaps. -/
theorem C5_forecast_horizon (predict : Int → Int × Int × Int)
    (df : List TimeSeriesPoint) (N : Nat)
    (h2 : 2 ≤ ((df.map TimeSeriesPoint.ds).dedup).length) (hN : 0 < N) :
    ∃ r : ForecastResult,
      forecast predict df N = .ok ({ daily_seasonality := true }, r)
      ∧ r.projected.length = N
      ∧ r.projected.map ProjectedPoint.ds
          = (List.range N).map (fun (i : Nat) => lastDs df + 1 + (i : Int))
      ∧ r.projected.Pairwise (fun p q => p.ds < q.ds) := by
  unfold forecast prophet_fit_predict
  rw [if_neg (by omega)]
  refine ⟨_, rfl, ?_, ?_, ?_⟩
  · rw [List.length_map, List.length_range]
  · simp only [List.map_map]
    rfl
  · refine List.Pairwise.map _ ?_ (List.pairwise_lt_range N)
    intro a b hab
    dsimp only
    omega

theorem C5_forecast_horizon_witness :
    ∃ r : ForecastResult,
      forecast (fun _ => (7, 3, 9)) [⟨0, 1⟩, ⟨1, 2⟩] 3 = .ok ({ daily_seasonality := true }, r)
      ∧ r.projected.length = 3
      ∧ r.projected.map ProjectedPoint.ds
          = (List.range 3).map (fun (i : Nat) => lastDs [⟨0, 1⟩, ⟨1, 2⟩] + 1 + (i : Int))
      ∧ r.projected.Pairwise (fun p q => p.ds < q.ds) :=
  C5_forecast_horizon (fun _ => (7, 3, 9)) [⟨0, 1⟩, ⟨1, 2⟩] 3 (by decide) (by decide)

end SeoApp
